import Mathlib

/-!
Shallow embedding of the file_bundler program (src/main.rs).

Paths and all other strings are modelled as lists of characters (`Str`),
so that every definition is executable and decidable on concrete inputs.
The filesystem is modelled as a tree of nodes (`FSNode`); the walkdir
traversal is modelled by `walkDir`, which enumerates the root entry and
then every node of the tree in depth-first order (the Rust code uses
`WalkDir::new(..).into_iter().filter_map(|e| e.ok())` with a `continue`
in the consumer loop, which does NOT prune subtrees of skipped
directories: every node is yielded and tested).

The globset matcher is embedded for patterns built from literal
characters, `?` and `*` (default globset semantics: `*` and `?` match
any character, including the path separator, since `literal_separator`
is not enabled in the source). Character classes are not used by the
claims and are not modelled.

serde_yaml deserialization of `Config` is embedded at the level of an
already-parsed YAML mapping from keys to string lists
(`deserializeConfig`): the Rust struct derives `Deserialize` with no
`#[serde(default)]` on any field, so the derived deserializer requires
every field to be present and fails with a missing-field error
otherwise; unknown keys are ignored (serde default).

I/O failure modes are modelled explicitly: a file carries its `FileData`
(its decoded lines, or an open failure, or a line-decode failure) and a
`WriteOutcome` describing which of the three write operations of
`process_file` fails, if any. The underlying io error text is
environment-dependent and is modelled by the fixed string `writeErr`.
-/

namespace FileBundler

abbrev Str := List Char

def sep : Char := '/'

def nl : Char := Char.ofNat 10

/-- Boolean list-prefix test, the embedding of Rust `str::starts_with`. -/
def isPre : Str → Str → Bool
  | [], _ => true
  | _ :: _, [] => false
  | a :: as, b :: bs => a == b && isPre as bs

/-- Embedding of `Path::strip_prefix(root)` on string paths: succeeds on
the root itself (yielding the empty relative path, as walkdir's first
entry does) or on any path of the form `root ++ "/" ++ rest`. -/
def dropPre : Str → Str → Option Str
  | [], s => some s
  | _ :: _, [] => none
  | a :: as, b :: bs => if a = b then dropPre as bs else none

def stripRoot (root p : Str) : Option Str :=
  if p = root then some [] else dropPre (root ++ [sep]) p

/-- The relative path used throughout the source:
`entry.path().strip_prefix(root).unwrap_or(entry.path())`. -/
def relPathOf (root p : Str) : Str :=
  match stripRoot root p with
  | some r => r
  | none => p

/-- Embedding of globset matching for patterns of literals, `?` and `*`
(default globset semantics, no `literal_separator`). -/
def globMatch : Str → Str → Bool
  | [], [] => true
  | [], _ :: _ => false
  | '*' :: ps, s =>
      globMatch ps s ||
        (match s with
         | [] => false
         | _ :: s2 => globMatch ('*' :: ps) s2)
  | '?' :: ps, _ :: s => globMatch ps s
  | p :: ps, c :: s => p == c && globMatch ps s
  | _ :: _, [] => false
termination_by p s => (p.length, s.length)

/-- The `Config` struct of the source: three string lists. -/
structure Config where
  exclude_dirs : List Str
  exclude_files : List Str
  exclude_patterns : List Str
deriving DecidableEq

def emptyConfig : Config := ⟨[], [], []⟩

/-- The data of one file: its decoded lines (none of which contains a
newline, as produced by `BufReader::lines`), or an open failure, or a
failure to decode some line as UTF-8 text. -/
inductive FileData
  | lines (ls : List Str)
  | openFail
  | decodeFail
deriving DecidableEq

/-- Which of the three write operations of `process_file` fails:
the start-marker `writeln!`, the content `write_all`, or the end-marker
`writeln!`. Earlier operations have already reached the output file. -/
inductive WriteOutcome
  | allOk
  | failStart
  | failContent
  | failEnd
deriving DecidableEq

inductive EKind
  | dir
  | file (data : FileData) (w : WriteOutcome)
deriving DecidableEq

/-- A traversal entry: its absolute path and its kind. -/
structure Entry where
  path : Str
  kind : EKind
deriving DecidableEq

def Entry.isDir (e : Entry) : Bool :=
  match e.kind with
  | .dir => true
  | .file _ _ => false

/-- The core of `should_skip`, as a function of the entry's kind and the
relative-path string it is matched against. -/
def skipDecision (cfg : Config) (isDir : Bool) (rel : Str) : Bool :=
  if isDir then
    cfg.exclude_dirs.any (fun d => rel == d)
  else
    cfg.exclude_dirs.any (fun d => isPre (d ++ [sep]) rel) ||
    cfg.exclude_files.contains rel ||
    cfg.exclude_patterns.any (fun pat => globMatch pat rel)

/-- Embedding of `should_skip`: strip the root (falling back to the full
path), then decide by the directory rule or the three file rules. -/
def should_skip (cfg : Config) (root : Str) (e : Entry) : Bool :=
  skipDecision cfg e.isDir (relPathOf root e.path)

/-- A filesystem node: a file with its data, or a directory with children. -/
inductive FSNode
  | file (name : Str) (data : FileData) (w : WriteOutcome)
  | dir (name : Str) (children : List FSNode)

mutual

/-- Depth-first enumeration of one node's entries, as walkdir yields
them: the node itself, then (for a directory) all entries of all
children. No pruning happens here: the source's loop receives every
entry and merely `continue`s on skipped ones. -/
def walkNode (pre : Str) : FSNode → List Entry
  | .file n d w => [⟨pre ++ n, .file d w⟩]
  | .dir n cs => ⟨pre ++ n, .dir⟩ :: walkNodes (pre ++ n ++ [sep]) cs

def walkNodes (pre : Str) : List FSNode → List Entry
  | [] => []
  | c :: cs => walkNode pre c ++ walkNodes pre cs

end

/-- The full traversal: `WalkDir::new(root)` yields the root directory
itself first, then its contents depth-first. -/
def walkDir (root : Str) (tree : List FSNode) : List Entry :=
  ⟨root, .dir⟩ :: walkNodes (root ++ [sep]) tree

def startMarker (rel : Str) : Str :=
  ("--- START FILE: ").data ++ rel ++ (" ---").data ++ [nl]

def endMarker : Str :=
  ("--- END FILE ---").data ++ [nl, nl]

def joinLines (ls : List Str) : Str :=
  (ls.map (fun l => l ++ [nl])).flatten

def writeErr : Str := ("write error").data

/-- Embedding of `process_file`: returns the bytes that reach the output
file and the function's result. The whole content is accumulated in the
`content` string before the first write, so an open or line-decode
failure returns an error with nothing written; a write failure leaves
the earlier writes in the output. -/
def process_file (rel : Str) (d : FileData) (w : WriteOutcome) :
    Str × Except Str Unit :=
  match d with
  | .openFail => ([], .error (("Failed to open file").data))
  | .decodeFail => ([], .error (("Failed to read line").data))
  | .lines ls =>
    match w with
    | .allOk => (startMarker rel ++ joinLines ls ++ endMarker, .ok ())
    | .failStart => ([], .error writeErr)
    | .failContent => (startMarker rel, .error writeErr)
    | .failEnd => (startMarker rel ++ joinLines ls, .error writeErr)

/-- The warning printed to stderr on a per-file failure:
`Warning: Failed to process <path>: <cause>`, with the full path. -/
def warnMsg (p msg : Str) : Str :=
  ("Warning: Failed to process ").data ++ p ++ (": ").data ++ msg

/-- The main traversal loop: test every entry with `should_skip`,
process surviving files, collect output bytes and warnings. A failed
file's partial writes stay in the output and the loop continues. -/
def runEntries (cfg : Config) (root : Str) : List Entry → Str × List Str
  | [] => ([], [])
  | e :: es =>
    let rest := runEntries cfg root es
    if should_skip cfg root e then rest
    else
      match e.kind with
      | .dir => rest
      | .file d w =>
        let r := process_file (relPathOf root e.path) d w
        match r.2 with
        | .ok _ => (r.1 ++ rest.1, rest.2)
        | .error msg => (r.1 ++ rest.1, warnMsg e.path msg :: rest.2)

def kDirs : Str := ("exclude_dirs").data
def kFiles : Str := ("exclude_files").data
def kPats : Str := ("exclude_patterns").data

def missingMsg (k : Str) : Str := ("missing field ").data ++ k

/-- One field of the serde-derived deserializer: required, no default. -/
def getField (doc : List (Str × List Str)) (key : Str) :
    Except Str (List Str) :=
  match doc.lookup key with
  | some v => .ok v
  | none => .error (missingMsg key)

/-- The serde-derived `Deserialize` for `Config`, applied to a parsed
YAML mapping: every one of the three fields is required (the source has
no `#[serde(default)]`), unknown keys are ignored. -/
def deserializeConfig (doc : List (Str × List Str)) : Except Str Config := do
  let ds ← getField doc kDirs
  let fs ← getField doc kFiles
  let ps ← getField doc kPats
  return ⟨ds, fs, ps⟩

/-- The states a configuration source can be in: absent, present but
unreadable, present but not valid YAML, or parsed into a mapping. -/
inductive ConfigSource
  | absent
  | unreadable
  | malformed
  | parsed (doc : List (Str × List Str))

/-- Config acquisition in `main`: absent source gives the default config
and prints a notice; an unreadable or malformed source is a fatal error;
a parsed source goes through the derived deserializer. The Bool records
whether the informational notice was printed. -/
def loadConfigE : ConfigSource → Except Str (Config × Bool)
  | .absent => .ok (emptyConfig, true)
  | .unreadable => .error (("Failed to read config file").data)
  | .malformed => .error (("Failed to parse config file").data)
  | .parsed doc => (deserializeConfig doc).map (fun c => (c, false))

/-- Observable outcome of a run of `main`: process exit code, whether
the no-config notice was printed, whether the output file was created,
the bytes written to it, the warnings printed to stderr, and the final
stdout message. -/
structure RunResult where
  exitCode : Nat
  noticePrinted : Bool
  outputCreated : Bool
  output : Str
  warnings : List Str
  finalMessage : Option Str
deriving DecidableEq

/-- Embedding of `main` after argument validation: load the config
(fatal on error, before the output file is created), create the output
file, run the traversal loop, print the bundle path, exit zero. -/
def runMain (outPath root : Str) (src : ConfigSource) (tree : List FSNode) :
    RunResult :=
  match loadConfigE src with
  | .error _ => ⟨1, false, false, [], [], none⟩
  | .ok (cfg, notice) =>
    let r := runEntries cfg root (walkDir root tree)
    ⟨0, notice, true, r.1, r.2, some ((("Bundle created at: ").data ++ outPath))⟩

/-! Concrete inputs used by witnesses and counterexamples. -/

def rootEx : Str := ("root").data

def cfgNM : Config := ⟨[("node_modules").data], [], []⟩

def treeNM : List FSNode :=
  [ .dir (("node_modules").data)
      [ .dir (("pkg").data)
          [ .file (("index.js").data) (.lines [("x").data]) .allOk ] ],
    .dir (("src").data)
      [ .file (("index.js").data) (.lines [("y").data]) .allOk ] ]

/-! Helper lemmas. -/

theorem isPre_length {p s : Str} (h : isPre p s = true) : p.length ≤ s.length := by
  induction p generalizing s with
  | nil => simp
  | cons a as ih =>
    cases s with
    | nil => simp [isPre] at h
    | cons b bs =>
      simp only [isPre, Bool.and_eq_true] at h
      simpa using ih h.2

theorem isPre_append_single_self (d : Str) (c : Char) :
    isPre (d ++ [c]) d = false := by
  cases h : isPre (d ++ [c]) d
  · rfl
  · have := isPre_length h
    simp at this

/-- C1: for a file entry, `should_skip` returns true iff the relative
path starts with `d ++ "/"` for some excluded dir `d`, or equals an
excluded file, or matches some exclusion glob; a file for which none
hold is not skipped. -/
theorem file_skip_iff (cfg : Config) (root : Str) (e : Entry)
    (h : e.isDir = false) :
    should_skip cfg root e = true ↔
      ((∃ d ∈ cfg.exclude_dirs, isPre (d ++ [sep]) (relPathOf root e.path) = true) ∨
       relPathOf root e.path ∈ cfg.exclude_files ∨
       (∃ pat ∈ cfg.exclude_patterns, globMatch pat (relPathOf root e.path) = true)) := by
  simp [should_skip, skipDecision, h, List.any_eq_true, List.elem_iff, or_assoc]

theorem file_skip_iff_witness :
    (Entry.mk (("root/node_modules/pkg/index.js").data)
        (.file (.lines [("x").data]) .allOk)).isDir = false ∧
    (should_skip cfgNM rootEx
        (Entry.mk (("root/node_modules/pkg/index.js").data)
          (.file (.lines [("x").data]) .allOk)) = true ↔
      ((∃ d ∈ cfgNM.exclude_dirs,
          isPre (d ++ [sep])
            (relPathOf rootEx (("root/node_modules/pkg/index.js").data)) = true) ∨
       relPathOf rootEx (("root/node_modules/pkg/index.js").data) ∈ cfgNM.exclude_files ∨
       (∃ pat ∈ cfgNM.exclude_patterns,
          globMatch pat
            (relPathOf rootEx (("root/node_modules/pkg/index.js").data)) = true))) :=
  ⟨by decide,
   file_skip_iff cfgNM rootEx
     (Entry.mk (("root/node_modules/pkg/index.js").data)
       (.file (.lines [("x").data]) .allOk)) (by decide)⟩

/-- C4: for a directory entry, `should_skip` returns true iff the
directory's own relative path exactly equals one of the excluded-dir
entries; a nested directory whose name but not full relative path
matches a configured string is therefore not skipped by this rule. -/
theorem dir_skip_iff (cfg : Config) (root : Str) (e : Entry)
    (h : e.isDir = true) :
    should_skip cfg root e = true ↔ relPathOf root e.path ∈ cfg.exclude_dirs := by
  simp [should_skip, skipDecision, h, List.any_eq_true]

theorem dir_skip_iff_witness :
    (Entry.mk (("root/node_modules/pkg").data) .dir).isDir = true ∧
    (should_skip cfgNM rootEx (Entry.mk (("root/node_modules/pkg").data) .dir) = true ↔
      relPathOf rootEx (("root/node_modules/pkg").data) ∈ cfgNM.exclude_dirs) :=
  ⟨by decide,
   dir_skip_iff cfgNM rootEx (Entry.mk (("root/node_modules/pkg").data) .dir) (by decide)⟩

/-- C10: the directory decision never consults excludeFiles or
excludePatterns (two configs agreeing on exclude_dirs decide every
directory entry identically), and a file whose relative path exactly
equals an excluded-dir entry is not excluded by that entry: with that
entry as the whole configuration the file is kept, because the file rule
requires the strict prefix `d ++ "/"`, never an exact match. -/
theorem dir_file_rules_independent :
    (∀ cfg cfg2 : Config, ∀ root : Str, ∀ e : Entry, e.isDir = true →
       cfg.exclude_dirs = cfg2.exclude_dirs →
       should_skip cfg root e = should_skip cfg2 root e) ∧
    (∀ d root : Str, ∀ e : Entry, e.isDir = false → relPathOf root e.path = d →
       should_skip ⟨[d], [], []⟩ root e = false) := by
  constructor
  · intro cfg cfg2 root e h hd
    simp [should_skip, skipDecision, h, hd]
  · intro d root e h hrel
    simp [should_skip, skipDecision, h, hrel, isPre_append_single_self]

theorem dir_file_rules_independent_witness :
    should_skip ⟨[("node_modules").data], [], []⟩ rootEx
        (Entry.mk (("root/node_modules").data) .dir) =
      should_skip ⟨[("node_modules").data], [("a").data], [("*.log").data]⟩ rootEx
        (Entry.mk (("root/node_modules").data) .dir) ∧
    should_skip ⟨[("node_modules").data], [], []⟩ rootEx
        (Entry.mk (("root/node_modules").data) (.file (.lines []) .allOk)) = false :=
  ⟨dir_file_rules_independent.1 ⟨[("node_modules").data], [], []⟩
     ⟨[("node_modules").data], [("a").data], [("*.log").data]⟩ rootEx
     (Entry.mk (("root/node_modules").data) .dir) (by decide) (by decide),
   dir_file_rules_independent.2 (("node_modules").data) rootEx
     (Entry.mk (("root/node_modules").data) (.file (.lines []) .allOk))
     (by decide) (by decide)⟩

/-- C8: when stripping the root from an entry's path fails, the full
path is used as the relative path, so the skip decision is taken on the
full path and the start marker carries the full path; no error arises. -/
theorem strip_fallback (root p : Str) (h : stripRoot root p = none) :
    relPathOf root p = p ∧
    (∀ cfg : Config, ∀ k : EKind,
       should_skip cfg root ⟨p, k⟩ = skipDecision cfg (Entry.mk p k).isDir p) ∧
    (∀ ls : List Str,
       process_file (relPathOf root p) (.lines ls) .allOk =
         (startMarker p ++ joinLines ls ++ endMarker, .ok ())) := by
  have h1 : relPathOf root p = p := by simp [relPathOf, h]
  refine ⟨h1, ?_, ?_⟩
  · intro cfg k
    simp [should_skip, h1]
  · intro ls
    simp [h1, process_file]

theorem strip_fallback_witness :
    relPathOf (("root").data) (("elsewhere/f.txt").data) = (("elsewhere/f.txt").data) ∧
    (∀ cfg : Config, ∀ k : EKind,
       should_skip cfg (("root").data) ⟨("elsewhere/f.txt").data, k⟩ =
         skipDecision cfg (Entry.mk (("elsewhere/f.txt").data) k).isDir
           (("elsewhere/f.txt").data)) ∧
    (∀ ls : List Str,
       process_file (relPathOf (("root").data) (("elsewhere/f.txt").data)) (.lines ls) .allOk =
         (startMarker (("elsewhere/f.txt").data) ++ joinLines ls ++ endMarker, .ok ())) :=
  strip_fallback (("root").data) (("elsewhere/f.txt").data) (by decide)

/-- C2 counterexample: with `node_modules` excluded, the directory entry
for `root/node_modules` is itself skipped, yet the traversal that the
main loop consumes (`walkDir`, the embedding of the source's unpruned
`WalkDir` iterator) still contains entries strictly inside the excluded
directory — both the nested directory `root/node_modules/pkg` and the
file `root/node_modules/pkg/index.js` are visited and therefore tested
by `should_skip`. This refutes the claim that no node strictly inside an
excluded directory is ever visited or tested. -/
theorem walk_descends_into_excluded :
    should_skip cfgNM rootEx (Entry.mk (("root/node_modules").data) .dir) = true ∧
    (Entry.mk (("root/node_modules/pkg").data) .dir) ∈ walkDir rootEx treeNM ∧
    (Entry.mk (("root/node_modules/pkg/index.js").data)
        (.file (.lines [("x").data]) .allOk)) ∈ walkDir rootEx treeNM := by
  decide

/-- C2 amended: the traversal does descend into excluded directories
(see the counterexample), but every file entry whose relative path lies
strictly under an excluded directory is skipped by the file prefix rule,
and a skipped entry contributes nothing to the output or the warnings,
so the excluded subtree's files are still absent from the artifact. -/
theorem excluded_subtree_filtered :
    (∀ cfg : Config, ∀ root : Str, ∀ e : Entry, ∀ d : Str,
       d ∈ cfg.exclude_dirs → e.isDir = false →
       isPre (d ++ [sep]) (relPathOf root e.path) = true →
       should_skip cfg root e = true) ∧
    (∀ cfg : Config, ∀ root : Str, ∀ e : Entry, ∀ es : List Entry,
       should_skip cfg root e = true →
       runEntries cfg root (e :: es) = runEntries cfg root es) := by
  constructor
  · intro cfg root e d hd hf hp
    simp only [should_skip, skipDecision, hf, if_neg Bool.false_ne_true,
      Bool.or_eq_true, List.any_eq_true]
    exact Or.inl (Or.inl ⟨d, hd, hp⟩)
  · intro cfg root e es h
    simp [runEntries, h]

theorem excluded_subtree_filtered_witness :
    should_skip cfgNM rootEx
        (Entry.mk (("root/node_modules/pkg/index.js").data)
          (.file (.lines [("x").data]) .allOk)) = true ∧
    runEntries cfgNM rootEx
        ((Entry.mk (("root/node_modules").data) .dir) :: []) =
      runEntries cfgNM rootEx [] :=
  ⟨excluded_subtree_filtered.1 cfgNM rootEx
     (Entry.mk (("root/node_modules/pkg/index.js").data)
       (.file (.lines [("x").data]) .allOk))
     (("node_modules").data) (by decide) (by decide) (by decide),
   excluded_subtree_filtered.2 cfgNM rootEx
     (Entry.mk (("root/node_modules").data) .dir) [] (by decide)⟩

/-- C5: an absent configuration source yields a run on the all-empty
config with the notice printed and exit zero, while an unreadable or
unparsable source (or one the derived deserializer rejects) aborts with
exit code 1 before the output artifact is created or written. -/
theorem config_failure_is_fatal (outPath root : Str) (tree : List FSNode) :
    (runMain outPath root .absent tree).exitCode = 0 ∧
    (runMain outPath root .absent tree).noticePrinted = true ∧
    (runMain outPath root .absent tree).output =
      (runEntries emptyConfig root (walkDir root tree)).1 ∧
    runMain outPath root .unreadable tree = ⟨1, false, false, [], [], none⟩ ∧
    runMain outPath root .malformed tree = ⟨1, false, false, [], [], none⟩ ∧
    (∀ doc : List (Str × List Str), ∀ msg : Str,
       deserializeConfig doc = .error msg →
       runMain outPath root (.parsed doc) tree = ⟨1, false, false, [], [], none⟩) := by
  refine ⟨rfl, rfl, rfl, rfl, rfl, ?_⟩
  intro doc msg h
  simp [runMain, loadConfigE, h, Except.map]

theorem config_failure_is_fatal_witness :
    runMain [] [] (.parsed [(kDirs, [])]) [] = ⟨1, false, false, [], [], none⟩ :=
  (config_failure_is_fatal [] [] []).2.2.2.2.2 [(kDirs, [])]
    (missingMsg kFiles) (by rfl)

/-- C3 counterexample: a parsed configuration mapping that contains only
the key `exclude_dirs` does not deserialize to a Config with the two
absent lists empty; the derived deserializer fails with a missing-field
error, because no field of the source's Config struct carries a serde
default. -/
theorem missing_key_fails :
    deserializeConfig [(kDirs, [])] = .error (missingMsg kFiles) := by
  rfl

/-- C3 amended: for a configuration source that exists and parses, the
derived deserializer succeeds exactly when all three list-valued keys
are present, yielding their values; a missing key is a fatal
missing-field parse error, not an empty-list default (empty lists arise
only from an absent source or explicitly empty values). -/
theorem required_keys_parse (doc : List (Str × List Str)) :
    (∀ ds fs ps : List Str,
       doc.lookup kDirs = some ds → doc.lookup kFiles = some fs →
       doc.lookup kPats = some ps → deserializeConfig doc = .ok ⟨ds, fs, ps⟩) ∧
    (doc.lookup kDirs = none →
       deserializeConfig doc = .error (missingMsg kDirs)) ∧
    (∀ ds : List Str, doc.lookup kDirs = some ds → doc.lookup kFiles = none →
       deserializeConfig doc = .error (missingMsg kFiles)) ∧
    (∀ ds fs : List Str, doc.lookup kDirs = some ds →
       doc.lookup kFiles = some fs → doc.lookup kPats = none →
       deserializeConfig doc = .error (missingMsg kPats)) := by
  refine ⟨?_, ?_, ?_, ?_⟩
  · intro ds fs ps h1 h2 h3
    simp [deserializeConfig, getField, h1, h2, h3, Bind.bind, Except.bind,
      pure, Except.pure]
  · intro h1
    simp [deserializeConfig, getField, h1, Bind.bind, Except.bind]
  · intro ds h1 h2
    simp [deserializeConfig, getField, h1, h2, Bind.bind, Except.bind]
  · intro ds fs h1 h2 h3
    simp [deserializeConfig, getField, h1, h2, h3, Bind.bind, Except.bind]

theorem required_keys_parse_witness :
    deserializeConfig [(kDirs, [("node_modules").data]), (kFiles, []), (kPats, [])] =
      .ok ⟨[("node_modules").data], [], []⟩ ∧
    deserializeConfig [(kFiles, [])] = .error (missingMsg kDirs) ∧
    deserializeConfig [(kDirs, []), (kPats, [])] = .error (missingMsg kFiles) ∧
    deserializeConfig [(kDirs, []), (kFiles, [])] = .error (missingMsg kPats) :=
  ⟨(required_keys_parse _).1 [("node_modules").data] [] [] (by decide) (by decide) (by decide),
   (required_keys_parse _).2.1 (by decide),
   (required_keys_parse _).2.2.1 [] (by decide) (by decide),
   (required_keys_parse _).2.2.2 [] [] (by decide) (by decide) (by decide)⟩

/-- C6: per-file failures are non-fatal. Whenever the configuration
loads, the run exits zero and prints the bundle path, however many files
failed; and for an unskipped file entry whose processing fails, the loop
records a warning carrying the entry's path and the underlying cause and
continues with the remaining entries unchanged. -/
theorem per_file_failures_nonfatal :
    (∀ outPath root : Str, ∀ src : ConfigSource, ∀ tree : List FSNode,
       ∀ cfg : Config, ∀ b : Bool, loadConfigE src = .ok (cfg, b) →
       (runMain outPath root src tree).exitCode = 0 ∧
       (runMain outPath root src tree).finalMessage =
         some ((("Bundle created at: ").data ++ outPath))) ∧
    (∀ cfg : Config, ∀ root : Str, ∀ e : Entry, ∀ es : List Entry,
       ∀ d : FileData, ∀ w : WriteOutcome, ∀ msg : Str,
       should_skip cfg root e = false → e.kind = .file d w →
       (process_file (relPathOf root e.path) d w).2 = .error msg →
       runEntries cfg root (e :: es) =
         ((process_file (relPathOf root e.path) d w).1 ++ (runEntries cfg root es).1,
          warnMsg e.path msg :: (runEntries cfg root es).2)) := by
  constructor
  · intro outPath root src tree cfg b h
    simp [runMain, h]
  · intro cfg root e es d w msg h1 h2 h3
    simp [runEntries, h1, h2, h3]

theorem per_file_failures_nonfatal_witness :
    ((runMain (("bundle.txt").data) rootEx .absent treeNM).exitCode = 0 ∧
     (runMain (("bundle.txt").data) rootEx .absent treeNM).finalMessage =
       some ((("Bundle created at: ").data ++ ("bundle.txt").data))) ∧
    runEntries emptyConfig rootEx
        [Entry.mk (("root/a.txt").data) (.file .openFail .allOk)] =
      ((process_file (relPathOf rootEx (("root/a.txt").data)) .openFail .allOk).1 ++
         (runEntries emptyConfig rootEx []).1,
       warnMsg (("root/a.txt").data) (("Failed to open file").data) ::
         (runEntries emptyConfig rootEx []).2) :=
  ⟨per_file_failures_nonfatal.1 (("bundle.txt").data) rootEx .absent treeNM
     emptyConfig true (by rfl),
   per_file_failures_nonfatal.2 emptyConfig rootEx
     (Entry.mk (("root/a.txt").data) (.file .openFail .allOk)) []
     .openFail .allOk (("Failed to open file").data)
     (by decide) (by decide) (by rfl)⟩

/-- Splits a character stream into its newline-terminated lines: the
extraction step of the round-trip property. -/
def linesOf : Str → List Str
  | [] => []
  | c :: s =>
    if c = nl then [] :: linesOf s
    else
      match linesOf s with
      | [] => [[c]]
      | l :: ls => (c :: l) :: ls

theorem linesOf_line_append (l s : Str) (h : nl ∉ l) :
    linesOf (l ++ nl :: s) = l :: linesOf s := by
  induction l with
  | nil => simp [linesOf]
  | cons c cs ih =>
    have hc : c ≠ nl := fun hcn => h (hcn ▸ List.mem_cons_self c cs)
    have hcs : nl ∉ cs := fun hm => h (List.mem_cons_of_mem c hm)
    simp only [List.cons_append, linesOf, if_neg hc, List.append_eq, ih hcs]

theorem joinLines_cons (l : Str) (ls : List Str) :
    joinLines (l :: ls) = l ++ nl :: joinLines ls := by
  simp [joinLines]

theorem linesOf_joinLines (ls : List Str) (h : ∀ l ∈ ls, nl ∉ l) :
    linesOf (joinLines ls) = ls := by
  induction ls with
  | nil => simp [joinLines, linesOf]
  | cons l rest ih =>
    rw [joinLines_cons, linesOf_line_append l _ (h l (List.mem_cons_self l rest)),
      ih (fun x hx => h x (List.mem_cons_of_mem l hx))]

/-- C7: a successfully processed file contributes exactly the block
start-marker line, each content line terminated by one newline, end
marker, blank line; and splitting the content part back into lines
recovers the file's original line sequence. -/
theorem round_trip (rel : Str) (ls : List Str) (h : ∀ l ∈ ls, nl ∉ l) :
    process_file rel (.lines ls) .allOk =
      (startMarker rel ++ joinLines ls ++ endMarker, .ok ()) ∧
    linesOf (joinLines ls) = ls :=
  ⟨rfl, linesOf_joinLines ls h⟩

theorem round_trip_witness :
    process_file (("a.txt").data) (.lines [("hi").data, ("yo").data]) .allOk =
      (startMarker (("a.txt").data) ++ joinLines [("hi").data, ("yo").data] ++ endMarker,
       .ok ()) ∧
    linesOf (joinLines [("hi").data, ("yo").data]) = [("hi").data, ("yo").data] :=
  round_trip (("a.txt").data) [("hi").data, ("yo").data] (by decide)

/-- C9: a file whose open fails or whose content fails to decode writes
nothing at all to the output — the content is fully buffered before the
first write — so any nonempty contribution, in particular a dangling
start marker, can only come from a file whose lines were all read, i.e.
from a write failure. -/
theorem read_failure_writes_nothing :
    (∀ rel : Str, ∀ w : WriteOutcome,
       (process_file rel .openFail w).1 = [] ∧
       (process_file rel .decodeFail w).1 = []) ∧
    (∀ rel : Str, ∀ d : FileData, ∀ w : WriteOutcome,
       (process_file rel d w).1 ≠ [] → ∃ ls : List Str, d = FileData.lines ls) := by
  constructor
  · intro rel w
    exact ⟨rfl, rfl⟩
  · intro rel d w h
    cases d with
    | lines ls => exact ⟨ls, rfl⟩
    | openFail => simp [process_file] at h
    | decodeFail => simp [process_file] at h

theorem read_failure_writes_nothing_witness :
    ∃ ls : List Str, FileData.lines [("x").data] = FileData.lines ls :=
  read_failure_writes_nothing.2 (("a.txt").data) (.lines [("x").data]) .allOk
    (by decide)

end FileBundler
